import Mathlib

/-!
Verification of the db2 repository's SQL execution layer.

This file shallowly embeds the parts of `src/db2` that the specification
talks about:

* `DB._apply_handlebars` (db2/db.py lines 236-280): handlebars-style
  template expansion.  A pybars template compiled from an SQL string is
  modelled as a list of literal and variable parts (`Template`); rendering
  a mapping substitutes variable parts textually (missing keys render as
  the empty string, as pybars does).  HTML-escaping of a handful of
  characters performed by pybars is not modelled; no claim depends on
  those characters.
* `utils.is_query` (db2/utils.py lines 63-80): the statement classifier.
* the inner body of `DB.sql` (db2/db.py lines 401-462) and its decorator
  `DB._concat_dfs` (lines 337-398): the execution dispatcher.  The
  database connection is an oracle function; pandas DataFrames are pairs
  of a column list and a row list.
* `SpatiaLiteBlobElement.__init__` (db2/ext/spatialdb/spatialdb.py lines
  181-203): the geometry blob decoder, embedded as a total function
  returning `Option`, the error branch standing for the Python exceptions
  (IndexError from the endianness lookup, struct.error from the 4-byte
  unpack).
* `check_security`, `SpatiaLiteDB.import_shp`, `SpatiaLiteDB.export_shp`
  (db2/ext/spatialdb/spatialdb.py): the security gate.  The environment is
  an association list; each function returns the list of SQL strings it
  handed to the engine together with its outcome.

Python text is modelled as `List Char` so that the exact character level
operations of the source (strip, endswith, join, slicing) can be stated
and decided.
-/

namespace Db2

/-- Python strings, modelled as lists of characters. -/
abbrev Str := List Char

/-- `s.endswith suffix` from Python. -/
def endsC (s suffix : Str) : Bool := List.isSuffixOf suffix s

/-- `sub in s` from Python (substring containment): `sub` is a prefix of
some suffix of `s`. -/
def containsSub (s sub : Str) : Bool :=
  match s with
  | [] => sub.isEmpty
  | c :: rest => List.isPrefixOf sub (c :: rest) || containsSub rest sub

/-- Python `str.strip()`: whitespace characters stripped on both ends. -/
def isPyWs (c : Char) : Bool :=
  c == ' ' || c == '\t' || c == '\n' || c == '\r' || c == '\x0b' || c == '\x0c'

/-- Strip characters satisfying `p` from both ends of a list. -/
def stripBy (p : Char → Bool) (s : Str) : Str :=
  ((s.dropWhile p).reverse.dropWhile p).reverse

/-- Python `str.strip()` (no argument: whitespace). -/
def pyStrip (s : Str) : Str := stripBy isPyWs s

/-- Python `str.strip(";")`. -/
def stripSemi (s : Str) : Str := stripBy (fun c => c == ';') s

/-- Python `str.lower()`. -/
def lowerC (s : Str) : Str := s.map Char.toLower

/-- The two-character handlebars opening marker. -/
def hbOpen : Str := "\x7b\x7b".toList

/-- The two-character handlebars closing marker. -/
def hbClose : Str := "\x7d\x7d".toList

/-- One part of a compiled pybars template: literal text or a variable
marker. -/
inductive TPart where
  | lit (s : Str)
  | var (name : Str)
deriving DecidableEq

/-- A compiled pybars template, as produced by `pybars.Compiler().compile`.
Literal parts are the text between markers; a variable part stands for a
marker written with the two-brace syntax around its name. -/
abbrev Template := List TPart

/-- The SQL source text a template was compiled from. -/
def sqlText (tpl : Template) : Str :=
  (tpl.map (fun p =>
    match p with
    | .lit s => s
    | .var x => hbOpen ++ x ++ hbClose)).flatten

/-- A handlebars context: keys mapped to the text substituted for them. -/
abbrev Mapping := List (Str × Str)

/-- Render one template against one mapping, as `template(item)` does in
pybars: variable parts are replaced by the looked-up value, a missing key
renders as the empty string. -/
def render (tpl : Template) (m : Mapping) : Str :=
  (tpl.map (fun p =>
    match p with
    | .lit s => s
    | .var x => (List.lookup x m).getD [])).flatten

/-- The `data` argument of `DB._apply_handlebars`, split by the two
`isinstance` tests of the source: a list, a dict, or anything else
(`None` included). -/
inductive HData where
  | hlist (ms : List Mapping)
  | hdict (m : Mapping)
  | hother
deriving DecidableEq

/-- The union separator `"\nUNION ALL "` used by the list branch. -/
def unionSep : Str := "\nUNION ALL ".toList

/-- The statement separator `";\n"` used by the non-union list branch. -/
def scriptSep : Str := ";\n".toList

/-- One trailing semicolon. -/
def semi : Str := ";".toList

/-- `DB._apply_handlebars(sql, data, union)` (db2/db.py lines 236-280).

The source computes `has_semicolon = sql.endswith(";")`, renders per the
type of `data`, and finally returns
`query + (";" if not query.endswith(";") and has_semicolon is True else "")`.
In the non-union list branch `has_semicolon` is forced to `True`, so there
the final conditional only tests `query`.  The else branch returns the
input string unchanged. -/
def applyHandlebars (tpl : Template) (data : HData) (union : Bool) : Str :=
  let sql := sqlText tpl
  let hasSemi := endsC sql semi
  match data with
  | .hlist ms =>
    let rendered := ms.map (render tpl)
    if union then
      let query := List.intercalate unionSep rendered
      query ++ (if !endsC query semi && hasSemi then semi else [])
    else
      let query := List.intercalate scriptSep (rendered.map stripSemi)
      query ++ (if !endsC query semi then semi else [])
  | .hdict m =>
    let query := render tpl m
    query ++ (if !endsC query semi && hasSemi then semi else [])
  | .hother => sql

/-! ### Statement classifier (`utils.is_query`) -/

/-- A token of a parsed sqlparse statement: its whitespace flag and the
Python class name of the token object (`"Token"` for plain tokens,
`"Function"`, `"Identifier"` and so on for grouped ones). -/
structure Token where
  ws : Bool
  kind : Str
deriving DecidableEq

/-- A statement produced by `sqlparse.parse`: the template its text
compiles to, its token list, and the result of `get_type()`. -/
structure Stmt where
  tpl : Template
  tokens : List Token
  typ : Str
deriving DecidableEq

/-- The source text of a statement (`stmt.value`). -/
def stmtText (st : Stmt) : Str := sqlText st.tpl

/-- The non-whitespace tokens of a statement, as built on line 78 of
db2/utils.py. -/
def nonWsTokens (st : Stmt) : List Token :=
  st.tokens.filter (fun t => !t.ws)

/-- `utils.is_query` (db2/utils.py lines 63-80).  The source evaluates
`parsed_sql.get_type() == "SELECT"` first and only then indexes
`tokens[1]`; on a SELECT statement with fewer than two non-whitespace
tokens that index raises IndexError, modelled as `none`. -/
def isQuery (st : Stmt) : Option Bool :=
  if st.typ = "SELECT".toList then
    ((nonWsTokens st).get? 1).map (fun t => !(t.kind == "Function".toList))
  else
    some false

/-- The classifier as the specification words it: statement type is a
data query and the first non-whitespace token is not a function
invocation.  Kept separate from `isQuery` so the two can be compared. -/
def specIsQuery (st : Stmt) : Bool :=
  st.typ == "SELECT".toList &&
    (match (nonWsTokens st).head? with
     | some t => !(t.kind == "Function".toList)
     | none => false)

/-! ### Result tables and execution oracles -/

/-- A scalar cell value: text, an integer, or the missing-value marker
pandas fills unaligned cells with. -/
inductive Val where
  | vstr (s : Str)
  | vint (n : Int)
  | vnan
deriving DecidableEq

/-- A pandas DataFrame, reduced to its column labels and rows. -/
structure Df where
  cols : List Str
  rows : List (List Val)
deriving DecidableEq

/-- What one `con.execute` returns: the column labels of the result proxy
(`rprox.keys()`) and the fetched rows.  A statement whose `fetchall`
raises ResourceClosedError is modelled by an empty row list, exactly what
the `except` branch of db2/db.py lines 445-448 produces. -/
structure ExecResult where
  cols : List Str
  rows : List (List Val)
deriving DecidableEq

/-- An element of a sequence passed as `data`: a dict, a tuple of
scalars, or any other object. -/
inductive PParam where
  | ppdict (m : Mapping)
  | pptup (t : List Val)
  | ppother
deriving DecidableEq

/-- The `data` argument of `DB.sql`: Python `None`, a dict, a tuple of
scalars, a list (or tuple) of parameter sets, or any other object. -/
inductive PyData where
  | pnone
  | pdict (m : Mapping)
  | ptup (t : List Val)
  | plist (l : List PParam)
  | pother
deriving DecidableEq

/-- Reinject a sequence element as a standalone data argument (the loop
variable `dat` handed to `con.execute`). -/
def paramData : PParam → PyData
  | .ppdict m => .pdict m
  | .pptup t => .ptup t
  | .ppother => .pother

/-- `isinstance(x, (dict, tuple))`, the test applied to `data[0]` on line
415 of db2/db.py. -/
def isParamSet : PParam → Bool
  | .ppdict _ => true
  | .pptup _ => true
  | .ppother => false

/-- Convert a `DB.sql` data argument to a `_apply_handlebars` one.  A
dict passes through; a list renders per element, a non-dict element
behaving as an empty context (pybars renders lookups on it as empty); a
tuple, `None` or anything else hits the fall-through branch. -/
def toHData : PyData → HData
  | .pdict m => .hdict m
  | .plist l => .hlist (l.map (fun d =>
      match d with
      | .ppdict m => m
      | _ => []))
  | _ => .hother

/-- `"\x7b\x7b" in sql`: the dispatcher's test for handlebars markers. -/
def hasHB (s : Str) : Bool := containsSub s hbOpen

/-! ### The inner body of `DB.sql` (db2/db.py lines 401-462) -/

/-- The connection oracle: `con.execute` with an optional data argument. -/
abbrev ExecFn := Str → Option PyData → ExecResult

/-- One iteration of the executemany loop (db2/db.py lines 417-427): with
markers present the statement is expanded for the element and executed
without bind data, otherwise executed natively with the element bound. -/
def manyStep (exec : ExecFn) (tpl : Template) (dat : PParam) : ExecResult :=
  if hasHB (sqlText tpl) then
    exec (applyHandlebars tpl (toHData (paramData dat)) true) none
  else
    exec (sqlText tpl) (some (paramData dat))

/-- The column list of the degenerate result shape. -/
def sqlCol : Str := "SQL".toList

/-- Second column label of the degenerate result shape. -/
def resultCol : Str := "Result".toList

/-- Lines 439-462 of db2/db.py: substitute `["SQL", "Result"]` when the
proxy returned no columns, then fill the degenerate row (count `n` for
executemany, 1 otherwise) when no rows came back, or an empty table when
columns did come back. -/
def finalize (sql : Str) (r : ExecResult) (many : Bool) (n : Nat) : Df :=
  let columns := if r.cols.length = 0 then [sqlCol, resultCol] else r.cols
  let results := r.rows
  if results.isEmpty then
    if columns = [sqlCol, resultCol] then
      if many then ⟨columns, [[.vstr (pyStrip sql), .vint (Int.ofNat n)]]⟩
      else ⟨columns, [[.vstr (pyStrip sql), .vint 1]]⟩
    else ⟨columns, []⟩
  else ⟨columns, results⟩

/-- The undecorated body of `DB.sql` (db2/db.py lines 401-462).  Branches
in source order: dict data with markers expands once and executes once;
non-`None` data that is a list whose first element is a dict or tuple
iterates the statement over the elements, only the last result proxy
surviving the loop; other non-`None` data executes once with native
binding; `None` executes the bare statement.  Indexing `data[0]` on an
empty list raises IndexError, modelled as `none`. -/
def dbSqlInner (exec : ExecFn) (tpl : Template) (data : PyData) : Option Df :=
  let sql := sqlText tpl
  let run : Option (ExecResult × Bool × Nat) :=
    match data with
    | .pdict m =>
      if hasHB sql then
        some (exec (applyHandlebars tpl (.hdict m) true) none, false, 1)
      else
        some (exec sql (some (PyData.pdict m)), false, 1)
    | .pnone => some (exec sql none, false, 1)
    | .plist l =>
      match l with
      | [] => none
      | h :: t =>
        if isParamSet h then
          some (t.foldl (fun _ dat => manyStep exec tpl dat) (manyStep exec tpl h),
                true, l.length)
        else
          some (exec sql (some (PyData.plist l)), false, 1)
    | d => some (exec sql (some d), false, 1)
  run.map (fun r => finalize sql r.1 r.2.1 r.2.2)

/-! ### The decorator `DB._concat_dfs` (db2/db.py lines 337-398) -/

/-- The oracles the wrapper needs: the DBAPI connection and
`pandas.read_sql` against the engine. -/
structure Oracle where
  exec : ExecFn
  readSql : Str → Df

/-- Apply a fallible function to every element; any failure fails the
whole list, as an uncaught exception aborts the Python loop. -/
def mapOpt (f : α → Option β) : List α → Option (List β)
  | [] => some []
  | a :: l =>
    match f a, mapOpt f l with
    | some b, some bs => some (b :: bs)
    | _, _ => none

/-- Replace the element at index `i` (when present) by `f` of it. -/
def listModify (l : List α) (i : Nat) (f : α → α) : List α :=
  l.enum.map (fun p => if p.1 = i then f p.2 else p.2)

/-- Append the floating terminator text to a statement, as
`parsed_list[i-1].value += "\nEND;"` does. -/
def appendEnd (st : Stmt) : Stmt :=
  { st with tpl := st.tpl ++ [.lit "\nEND;".toList] }

/-- Lines 369-377 of db2/db.py: statements whose stripped, lowered text is
the floating terminator are appended to the statement before them and
removed.  The indices are computed on the original list and processed in
descending order; Python's index `i-1` at `i = 0` wraps to the last
element. -/
def endMerge (parsed : List Stmt) : List Stmt :=
  let lowerParsed := parsed.map (fun st => lowerC (pyStrip (stmtText st)))
  if lowerParsed.contains "end;".toList then
    let indices := ((List.range parsed.length).filter
      (fun i => lowerParsed.get? i = some "end;".toList)).reverse
    indices.foldl (fun l i =>
      let j := if i = 0 then l.length - 1 else i - 1
      (listModify l j appendEnd).eraseIdx i) parsed
  else parsed

/-- Index of the first `true` flag, the position `parsed.index(...)` finds
for the first query statement. -/
def firstTrueIdx : List Bool → Option Nat
  | [] => none
  | b :: rest =>
    if b then some 0 else (firstTrueIdx rest).map (· + 1)

/-- Lines 392-396 of db2/db.py: a result whose columns are not the
degenerate pair is transposed (`df.T.reset_index()`) and its first two
column labels renamed; the remaining transposed columns keep their
integer labels.  The transposed table has one row per original column:
the column label followed by that column's cells. -/
def normalizeDf (df : Df) : Df :=
  if df.cols = [sqlCol, resultCol] then df
  else
    { cols := sqlCol :: (List.range df.rows.length).map
        (fun i => if i = 0 then resultCol else (toString i).toList),
      rows := df.cols.enum.map
        (fun p => .vstr p.2 :: df.rows.map (fun r => r.getD p.1 .vnan)) }

/-- First index of a column label in a column list. -/
def colIdx (cols : List Str) (c : Str) : Option Nat :=
  cols.findIdx? (fun c2 => c2 == c)

/-- Union of column lists in order of first appearance. -/
def unionCols (dfs : List Df) : List Str :=
  dfs.foldl (fun acc df =>
    df.cols.foldl (fun a c => if a.contains c then a else a ++ [c]) acc) []

/-- `pd.concat(dfs).reset_index(drop=True)`: rows of every table in
order, reindexed against the united column list, absent cells filled with
the missing-value marker. -/
def concatDfs (dfs : List Df) : Df :=
  let cols := unionCols dfs
  { cols := cols,
    rows := (dfs.map (fun df =>
      df.rows.map (fun r => cols.map (fun c =>
        match colIdx df.cols c with
        | some j => r.getD j .vnan
        | none => .vnan)))).flatten }

/-- The wrapper `sql_wrapper` produced by `DB._concat_dfs` (db2/db.py
lines 339-397), the function actually bound as `DB.sql`.  `parsed` is the
tuple `sqlparse.parse(sql)` returns; the original `sql` string is the
concatenation of the statement texts.  In source order: a lone statement
with markers that classifies as a query and carries no statement
separator is expanded against `data` and read back whole; otherwise
floating terminators are merged, every statement is executed through the
inner body, the raw result of the first query statement (if any) is
returned alone, and only when no statement is a query are the normalized
results concatenated.  `none` models the Python exceptions: a crash of
the classifier, a crash of the inner body, and `pd.concat` of an empty
list. -/
def sqlWrapper (o : Oracle) (parsed : List Stmt) (data : PyData) : Option Df :=
  let sqlT : Template := (parsed.map Stmt.tpl).flatten
  let sql := sqlText sqlT
  let special : Option (Option Df) :=
    match parsed with
    | [st] =>
      if hasHB sql then
        match isQuery st with
        | none => some none
        | some q =>
          if q && !containsSub sql semi then
            some (some (o.readSql (applyHandlebars sqlT (toHData data) true)))
          else none
      else none
    | _ => none
  match special with
  | some r => r
  | none =>
    let merged := endMerge parsed
    match mapOpt (fun st => dbSqlInner o.exec st.tpl data) merged with
    | none => none
    | some dfs =>
      match mapOpt isQuery merged with
      | none => none
      | some qflags =>
        match firstTrueIdx qflags with
        | some i => dfs.get? i
        | none =>
          match dfs with
          | [] => none
          | _ :: _ => some (concatDfs (dfs.map normalizeDf))

/-! ### SpatiaLite geometry blob decoder
(`SpatiaLiteBlobElement.__init__`, db2/ext/spatialdb/spatialdb.py lines
181-203) -/

/-- The decoded blob: the spatial reference id (Python wraps this integer
in `str`) and the reassembled well-known-binary bytes. -/
structure SLBE where
  srid : Int
  wkb : List Nat
deriving DecidableEq

/-- A signed 32-bit big-endian integer from four bytes. -/
def beInt32 (b2 b3 b4 b5 : Nat) : Int :=
  let u := b2 * 16777216 + b3 * 65536 + b4 * 256 + b5
  if u < 2147483648 then Int.ofNat u else Int.ofNat u - 4294967296

/-- A signed 32-bit little-endian integer from four bytes. -/
def leInt32 (b2 b3 b4 b5 : Nat) : Int := beInt32 b5 b4 b3 b2

/-- The decoder body.  The source indexes `array[1]` into a two-element
list of endianness markers (IndexError when the byte is neither 0 nor 1,
or when the buffer is shorter than two bytes), unpacks `array[2:6]` as a
4-byte integer in that endianness (struct.error when fewer than four
bytes remain), and assembles the well-known binary as the endianness byte
followed by `array[39:-1]`; both slices are total in Python. -/
def slbeDecode (b : List Nat) : Option SLBE :=
  match b.get? 1 with
  | none => none
  | some e =>
    if e = 0 ∨ e = 1 then
      match (b.drop 2).take 4 with
      | [b2, b3, b4, b5] =>
        some { srid := if e = 0 then beInt32 b2 b3 b4 b5 else leInt32 b2 b3 b4 b5,
               wkb := e :: (b.drop 39).dropLast }
      | _ => none
    else none

/-- The decoder as the specification words it: a 4-byte integer read at
the fixed offset immediately after the 2-byte header, big- or
little-endian per the declared endianness byte at offset 1, and the
payload sliced between the fixed header length (39) and the 1-byte
trailing terminator, the endianness byte prepended.  Kept separate from
`slbeDecode` so the two can be compared. -/
def specSlbeDecode (b : List Nat) : Option SLBE :=
  match b.get? 1 with
  | none => none
  | some e =>
    if e = 0 ∨ e = 1 then
      match b.get? 2, b.get? 3, b.get? 4, b.get? 5 with
      | some b2, some b3, some b4, some b5 =>
        some { srid := if e = 0 then beInt32 b2 b3 b4 b5 else leInt32 b2 b3 b4 b5,
               wkb := e :: (b.take (b.length - 1)).drop 39 }
      | _, _, _, _ => none
    else none

/-! ### Spatial import/export security gate
(db2/ext/spatialdb/spatialdb.py lines 79-84, 331-383) -/

/-- The Python exceptions these functions raise. -/
inductive PyError where
  | keyError (k : Str)
  | spatialiteError (msg : Str)
  | attributeError (msg : Str)
deriving DecidableEq

/-- The environment variable the gate consults. -/
def secKey : Str := "SPATIALITE_SECURITY".toList

/-- The required value. -/
def relaxedVal : Str := "relaxed".toList

/-- The message of the dedicated error. -/
def secMsg : Str := "SPATIALITE_SECURITY variable not set to \x27relaxed\x27".toList

/-- `check_security` (lines 79-84): reading a missing environment
variable raises KeyError; any value other than the relaxed one raises the
dedicated SpatiaLiteError with the message naming the precondition. -/
def checkSecurity (env : List (Str × Str)) : Except PyError Unit :=
  match List.lookup secKey env with
  | none => .error (.keyError secKey)
  | some v => if v = relaxedVal then .ok () else .error (.spatialiteError secMsg)

/-- `os.path.splitext(filename)[0]`, for filenames whose directory part
carries no dot: the text before the last dot, the whole text when there
is none. -/
def splitextRoot (s : Str) : Str :=
  match s.reverse.dropWhile (fun c => c != '.') with
  | '.' :: rest => rest.reverse
  | _ => s

/-- Backslashes replaced by forward slashes. -/
def slashify (s : Str) : Str := s.map (fun c => if c = '\\' then '/' else c)

/-- The oracles `import_shp` and `export_shp` touch once the gate has
passed: filesystem existence, the spatial reference check (itself a
query), the table list, the geometry-columns metadata, and `DB.sql`. -/
structure SpatialOracle where
  pathExists : Str → Bool
  hasSrid : Int → Bool
  tableNames : List Str
  geomTypeOf : Str → Nat
  sqlRun : Str → Df

/-- The statement `import_shp` hands to `DB.sql`. -/
def importShpSql : Str := "SELECT ImportSHP(?,?,?,?,?,?,?,?,?,?,?);".toList

/-- The statement `has_srid`/`get_spatial_ref_sys` run when the spatial
reference is missing. -/
def spatialRefSql : Str := "SELECT * FROM spatial_ref_sys WHERE srid=?".toList

/-- `SpatiaLiteDB.import_shp` (lines 331-358), returning the SQL strings
handed to the engine alongside the outcome.  The security gate runs
before everything else; then the filename is normalized and checked, the
spatial reference fetched when absent, the import statement executed, and
a missing result table reported as failure.  Bound parameters are not
modelled; the SQL texts are. -/
def importShp (env : List (Str × Str)) (o : SpatialOracle)
    (filename tableName : Str) (srid : Int) : List Str × Except PyError Df :=
  match checkSecurity env with
  | .error e => ([], .error e)
  | .ok _ =>
    let fname := slashify (splitextRoot filename)
    if !o.pathExists (fname ++ ".shp".toList) then
      ([], .error (.attributeError "cannot find path specified".toList))
    else
      let pre := if !o.hasSrid srid then [spatialRefSql] else []
      let df := o.sqlRun importShpSql
      if !o.tableNames.contains tableName then
        (pre ++ [importShpSql], .error (.spatialiteError "import failed".toList))
      else
        (pre ++ [importShpSql], .ok df)

/-- The geometry type names of db2/ext/spatialdb/spatialdb.py lines
41-47. -/
def geomTypes : List (Nat × Str) :=
  [(1, "POINT".toList), (2, "LINESTRING".toList),
   (3, "POLYGON".toList), (6, "MULTIPOLYGON".toList)]

/-- The query behind `get_geometry_data`. -/
def geometriesSql : Str :=
  ("SELECT * FROM geometry_columns g LEFT JOIN spatial_ref_sys s "
    ++ "ON g.srid=s.srid").toList

/-- The statement `export_shp` hands to `DB.sql` (the source passes
the import function here). -/
def exportShpSql : Str := "SELECT ImportSHP(?,?,?,?);".toList

/-- `SpatiaLiteDB.export_shp` (lines 360-383).  The security gate runs
before everything else; then the table is checked, the geometry metadata
queried, the automatic geometry type looked up (KeyError on an unlisted
code), the statement executed, and a missing output file reported as
failure. -/
def exportShp (env : List (Str × Str)) (o : SpatialOracle)
    (tableName filename geometryType : Str) : List Str × Except PyError Df :=
  match checkSecurity env with
  | .error e => ([], .error e)
  | .ok _ =>
    if !o.tableNames.contains tableName then
      ([], .error (.attributeError
        ("table \x27".toList ++ tableName ++ "\x27 not found".toList)))
    else
      let fname := slashify (splitextRoot filename)
      let code := o.geomTypeOf tableName
      let gt? := if geometryType = "AUTO".toList
        then List.lookup code geomTypes else some geometryType
      match gt? with
      | none => ([geometriesSql], .error (.keyError (toString code).toList))
      | some _ =>
        let df := o.sqlRun exportShpSql
        if !o.pathExists (fname ++ ".shp".toList) then
          ([geometriesSql, exportShpSql],
            .error (.spatialiteError "export failed".toList))
        else
          ([geometriesSql, exportShpSql], .ok df)

/-! ### Counting substring occurrences -/

/-- Number of positions of `s` at which `pat` starts. -/
def countOcc (pat : Str) : Str → Nat
  | [] => 0
  | c :: rest => (if pat <+: (c :: rest) then 1 else 0) + countOcc pat rest

/-- The union separator without its surrounding whitespace, the token the
specification counts. -/
def uAll : Str := "UNION ALL".toList

/-- The count an executemany-shaped data argument contributes to the
degenerate row: the element count for a non-empty sequence whose first
element is a dict or tuple, 1 in every other case. -/
def manyCount : PyData → Nat
  | .plist (h :: t) => if isParamSet h then (h :: t).length else 1
  | _ => 1

/-! ### Concrete inputs used by the closed theorems -/

/-- A parameterized query template without handlebars markers. -/
def qTpl : Template := [.lit "SELECT c FROM t WHERE x=?".toList]

/-- A one-column label. -/
def colC : Str := "c".toList

/-- A connection on which the two bound tuples select different rows. -/
def execMany : ExecFn := fun _ a =>
  match a with
  | some (.ptup [.vint 1]) => ⟨[colC], [[.vint 11]]⟩
  | some (.ptup [.vint 2]) => ⟨[colC], [[.vint 22]]⟩
  | _ => ⟨[], []⟩

/-- First bound tuple. -/
def par1 : PParam := .pptup [.vint 1]

/-- Second bound tuple. -/
def par2 : PParam := .pptup [.vint 2]

/-- A DDL statement template. -/
def ddlTpl : Template := [.lit "CREATE TABLE t (i INT);".toList]

/-- A connection that returns no column metadata and no rows, the shape a
DDL statement produces. -/
def execNone : ExecFn := fun _ _ => ⟨[], []⟩

/-- A parsed SELECT query statement. -/
def stA : Stmt :=
  { tpl := [.lit "SELECT c FROM t;".toList],
    tokens := [⟨false, "Token".toList⟩, ⟨true, "Token".toList⟩,
               ⟨false, "Identifier".toList⟩, ⟨true, "Token".toList⟩,
               ⟨false, "Token".toList⟩, ⟨true, "Token".toList⟩,
               ⟨false, "Identifier".toList⟩, ⟨false, "Punctuation".toList⟩],
    typ := "SELECT".toList }

/-- A parsed CREATE statement. -/
def stB : Stmt :=
  { tpl := [.lit " CREATE TABLE u (i INT);".toList],
    tokens := [⟨false, "Token".toList⟩],
    typ := "CREATE".toList }

/-- Another parsed CREATE statement. -/
def stC : Stmt :=
  { tpl := [.lit " CREATE TABLE v (i INT);".toList],
    tokens := [⟨false, "Token".toList⟩],
    typ := "CREATE".toList }

/-- A wrapper oracle on which only the SELECT of `stA` returns rows. -/
def orc : Oracle :=
  { exec := fun s _ =>
      if s = "SELECT c FROM t;".toList then ⟨[colC], [[.vstr "x".toList]]⟩
      else ⟨[], []⟩,
    readSql := fun _ => ⟨[], []⟩ }

/-- The parsed form of a SELECT whose single selected expression is a
function call. -/
def selFuncStmt : Stmt :=
  { tpl := [.lit "SELECT some_func()".toList],
    tokens := [⟨false, "Token".toList⟩, ⟨true, "Token".toList⟩,
               ⟨false, "Function".toList⟩],
    typ := "SELECT".toList }

/-- The parsed form of a plain star SELECT. -/
def selStarStmt : Stmt :=
  { tpl := [.lit "SELECT * FROM t".toList],
    tokens := [⟨false, "Token".toList⟩, ⟨true, "Token".toList⟩,
               ⟨false, "Token".toList⟩, ⟨true, "Token".toList⟩,
               ⟨false, "Token".toList⟩, ⟨true, "Token".toList⟩,
               ⟨false, "Identifier".toList⟩],
    typ := "SELECT".toList }

/-- A six byte blob: marker byte, little-endian flag, and the srid bytes
encoding 4326. -/
def exBlob : List Nat := [0, 1, 230, 16, 0, 0]

/-- A template that is one bare variable marker. -/
def semiTpl : Template := [.var "x".toList]

/-- A context whose value ends with a statement separator. -/
def semiMapping : Mapping := [("x".toList, "a;".toList)]

/-- A template whose literal part ends with the word UNION. -/
def unionTpl : Template := [.lit "A UNION".toList, .var "x".toList]

/-- A context whose value starts with the word ALL. -/
def unionMapping : Mapping := [("x".toList, " ALL B".toList)]

/-- A benign templated query. -/
def tplFrom : Template := [.lit "SELECT a FROM ".toList, .var "t".toList]

/-- Two table-name contexts for `tplFrom`. -/
def msFrom : List Mapping :=
  [[("t".toList, "t1".toList)], [("t".toList, "t2".toList)]]

/-- An environment with the security variable set but not relaxed. -/
def envStrict : List (Str × Str) := [(secKey, "strict".toList)]

/-- A spatial oracle that would let every later step succeed. -/
def spO : SpatialOracle :=
  { pathExists := fun _ => true,
    hasSrid := fun _ => true,
    tableNames := ["roads".toList],
    geomTypeOf := fun _ => 1,
    sqlRun := fun _ => ⟨[], []⟩ }

/-! ### Helper lemmas -/

theorem prefix_append_cons_iff {pat r t : Str} {a : Char} (ha : a ∉ pat) :
    pat <+: r ++ a :: t ↔ pat <+: r := by
  constructor
  · intro h
    rcases le_or_lt pat.length r.length with hle | hlt
    · exact List.prefix_of_prefix_length_le h (List.prefix_append r (a :: t)) hle
    · exfalso
      have hr : r <+: pat :=
        List.prefix_of_prefix_length_le (List.prefix_append r (a :: t)) h
          (Nat.le_of_lt hlt)
      obtain ⟨s, rfl⟩ := hr
      have hs : s <+: a :: t := (List.prefix_append_right_inj r).mp h
      match s, hs with
      | [], _ => simp at hlt
      | b :: s', hs =>
        have hb : b = a := (List.cons_prefix_cons.mp hs).1
        exact ha (by simp [hb])
  · intro h
    exact h.trans (List.prefix_append r (a :: t))

theorem countOcc_append_cons {pat r t : Str} {a : Char}
    (hpat : pat ≠ []) (ha : a ∉ pat) :
    countOcc pat (r ++ a :: t) = countOcc pat r + countOcc pat t := by
  induction r with
  | nil =>
    have hnp : ¬ (pat <+: a :: t) := by
      intro hp
      match pat, hp with
      | [], _ => exact hpat rfl
      | b :: p', hp =>
        exact ha (by simp [(List.cons_prefix_cons.mp hp).1])
    simp [countOcc, hnp]
  | cons c r' ih =>
    have hiff := prefix_append_cons_iff (r := c :: r') (t := t) ha
    show (if pat <+: (c :: r') ++ a :: t then 1 else 0) + countOcc pat (r' ++ a :: t)
        = ((if pat <+: c :: r' then 1 else 0) + countOcc pat r') + countOcc pat t
    rw [ih]
    by_cases hc : pat <+: c :: r'
    · rw [if_pos (hiff.mpr hc), if_pos hc]
      omega
    · rw [if_neg (fun hx => hc (hiff.mp hx)), if_neg hc]
      omega

theorem uAll_ne_nil : uAll ≠ [] := by decide

theorem newline_not_mem_uAll : '\n' ∉ uAll := by decide

theorem semi_not_mem_uAll : ';' ∉ uAll := by decide

theorem countOcc_nil (pat : Str) : countOcc pat [] = 0 := rfl

theorem uAll_not_prefix_ne {c : Char} (h : c ≠ 'U') (s : Str) :
    ¬ (uAll <+: c :: s) := by
  intro hp
  have hp' : 'U' :: "NION ALL".toList <+: c :: s := hp
  exact h ((List.cons_prefix_cons.mp hp').1).symm

theorem countOcc_sepTail_append (X : Str) :
    countOcc uAll ("UNION ALL ".toList ++ X) = 1 + countOcc uAll X := by
  show countOcc uAll
      ('U' :: 'N' :: 'I' :: 'O' :: 'N' :: ' ' :: 'A' :: 'L' :: 'L' :: ' ' :: X) =
        1 + countOcc uAll X
  simp only [countOcc]
  rw [if_pos (show uAll <+: 'U' :: 'N' :: 'I' :: 'O' :: 'N' :: ' ' :: 'A' :: 'L' :: 'L' :: ' ' :: X
        from ⟨' ' :: X, rfl⟩),
      if_neg (uAll_not_prefix_ne (by decide) _),
      if_neg (uAll_not_prefix_ne (by decide) _),
      if_neg (uAll_not_prefix_ne (by decide) _),
      if_neg (uAll_not_prefix_ne (by decide) _),
      if_neg (uAll_not_prefix_ne (by decide) _),
      if_neg (uAll_not_prefix_ne (by decide) _),
      if_neg (uAll_not_prefix_ne (by decide) _),
      if_neg (uAll_not_prefix_ne (by decide) _),
      if_neg (uAll_not_prefix_ne (by decide) _)]
  omega

theorem intercalate_cons_cons (sep a b : Str) (l : List Str) :
    List.intercalate sep (a :: b :: l) =
      a ++ sep ++ List.intercalate sep (b :: l) := by
  simp [List.intercalate, List.intersperse, List.append_assoc]

theorem countOcc_intercalate_unionSep (rs : List Str) (hne : rs ≠ [])
    (h : ∀ r ∈ rs, countOcc uAll r = 0) :
    countOcc uAll (List.intercalate unionSep rs) = rs.length - 1 := by
  induction rs with
  | nil => exact absurd rfl hne
  | cons r rest ih =>
    match rest with
    | [] =>
      have : List.intercalate unionSep [r] = r := by
        simp [List.intercalate, List.intersperse]
      rw [this, h r (by simp)]
      simp
    | b :: l =>
      rw [intercalate_cons_cons, List.append_assoc]
      have hsep : unionSep ++ List.intercalate unionSep (b :: l) =
          '\n' :: ("UNION ALL ".toList ++ List.intercalate unionSep (b :: l)) := rfl
      rw [hsep, countOcc_append_cons uAll_ne_nil newline_not_mem_uAll,
          countOcc_sepTail_append, h r (by simp),
          ih (by simp) (fun x hx => h x (List.mem_cons_of_mem r hx))]
      simp [List.length_cons]
      omega

theorem countOcc_append_semi {s : Str} :
    countOcc uAll (s ++ semi) = countOcc uAll s := by
  have := countOcc_append_cons (r := s) (t := ([] : Str))
    uAll_ne_nil semi_not_mem_uAll
  simpa [semi, countOcc] using this

theorem endsC_append_semi (q : Str) : endsC (q ++ semi) semi = true := by
  simp only [endsC]
  rw [List.isSuffixOf_iff_suffix]
  exact List.suffix_append q semi

theorem endsC_after_fix (q : Str) (b : Bool)
    (hb : endsC q semi = true ∨ b = true) :
    endsC (q ++ (if !endsC q semi && b then semi else [])) semi = true := by
  cases hq : endsC q semi with
  | true => simp [hq]
  | false =>
    have hbt : b = true := by
      rcases hb with h | h
      · rw [hq] at h; cases h
      · exact h
    simpa [hq, hbt] using endsC_append_semi q

theorem endsC_after_fix2 (q : Str) :
    endsC (q ++ (if !endsC q semi then semi else [])) semi = true := by
  cases hq : endsC q semi with
  | true => simp [hq]
  | false => simpa [hq] using endsC_append_semi q

theorem foldl_last {α β : Type} (f : α → β) (h : α) (t : List α) :
    t.foldl (fun _ d => f d) (f h) = f (t.getLastD h) := by
  induction t generalizing h with
  | nil => rfl
  | cons x xs ih =>
    rw [List.getLastD_cons]
    exact ih x

theorem endMerge_id (parsed : List Stmt)
    (h : ∀ st ∈ parsed, lowerC (pyStrip (stmtText st)) ≠ "end;".toList) :
    endMerge parsed = parsed := by
  unfold endMerge
  simp
  intro x hx hlx
  exact absurd hlx (h x hx)

theorem mapOpt_isQuery_false (l : List Stmt)
    (h : ∀ st ∈ l, isQuery st = some false) :
    mapOpt isQuery l = some (l.map fun _ => false) := by
  induction l with
  | nil => rfl
  | cons a t ih =>
    simp [mapOpt, h a (by simp),
      ih (fun st hst => h st (List.mem_cons_of_mem a hst))]

theorem firstTrueIdx_map_false (l : List Stmt) :
    firstTrueIdx (l.map fun _ => false) = none := by
  induction l with
  | nil => rfl
  | cons a t ih =>
    show (firstTrueIdx (t.map fun _ => false)).map (· + 1) = none
    rw [ih]
    rfl

theorem mapOpt_cons_ne_some_nil (f : α → Option β) (a : α) (l : List α) :
    mapOpt f (a :: l) ≠ some [] := by
  unfold mapOpt
  cases f a <;> cases mapOpt f l <;> simp

theorem dropLast_drop_comm (l : List α) (n : Nat) :
    (l.drop n).dropLast = (l.take (l.length - 1)).drop n := by
  rw [List.dropLast_eq_take, List.drop_take, List.length_drop]
  congr 1
  omega

/-! ### Claim theorems -/

/-- C10: for every SQL template and every union flag, `_apply_handlebars`
returns the input SQL text unchanged whenever the data argument is
neither a list nor a dict, `None` included, even when the text carries
variable markers. -/
theorem applyHandlebars_other_id (tpl : Template) (union : Bool) :
    applyHandlebars tpl .hother union = sqlText tpl := rfl

/-- C6 counterexample: a substituted value ending with a semicolon makes
the expansion end with a statement separator although the original
template did not end with one, so the two directions of the claimed
equivalence do not both hold. -/
theorem c6_value_semicolon :
    endsC (applyHandlebars semiTpl (.hdict semiMapping) true) semi = true
  ∧ endsC (sqlText semiTpl) semi = false := by decide

/-- C6 as amended: when the original template ends with a statement
separator, the expansion does too (single mapping, union join, and the
fall-through branch alike); and expansion of a list joined with statement
separators always ends with one.  The converse of the first part is
dropped: a substituted value may itself supply the trailing separator. -/
theorem applyHandlebars_trailing_semi (tpl : Template) :
    (∀ data union, endsC (sqlText tpl) semi = true →
        endsC (applyHandlebars tpl data union) semi = true)
  ∧ ∀ ms, endsC (applyHandlebars tpl (.hlist ms) false) semi = true := by
  constructor
  · intro data union hsemi
    match data with
    | .hother => exact hsemi
    | .hdict m =>
      exact endsC_after_fix (render tpl m) _ (Or.inr hsemi)
    | .hlist ms =>
      cases union with
      | true =>
        exact endsC_after_fix (List.intercalate unionSep (ms.map (render tpl)))
          _ (Or.inr hsemi)
      | false =>
        exact endsC_after_fix2 _
  · intro ms
    exact endsC_after_fix2 _

/-- C6 witness: a template ending with a semicolon expands, for a dict,
to text ending with a semicolon. -/
theorem c6_witness :
    endsC (sqlText ddlTpl) semi = true
  ∧ endsC (applyHandlebars ddlTpl (.hdict []) true) semi = true :=
  ⟨by decide, (applyHandlebars_trailing_semi ddlTpl).1 (.hdict []) true (by decide)⟩

/-- C7 counterexample: with one mapping, the claim expects zero union
separators; but a literal part ending in UNION composed with a value
starting in ALL forms one, although neither the template text nor the
substituted value contains the separator. -/
theorem c7_boundary_union :
    countOcc uAll (sqlText unionTpl) = 0
  ∧ (∀ m ∈ [unionMapping], ∀ p ∈ m, countOcc uAll p.2 = 0)
  ∧ countOcc uAll (applyHandlebars unionTpl (.hlist [unionMapping]) true) = 1
  ∧ countOcc uAll (applyHandlebars unionTpl (.hlist [unionMapping]) true) ≠
      [unionMapping].length - 1 := by decide

/-- C7 as amended: for a non-empty list of N mappings with the union
join, when no per-element rendering of the template contains the union
separator, the expanded text contains exactly N-1 union separators. -/
theorem applyHandlebars_union_count (tpl : Template) (ms : List Mapping)
    (hne : ms ≠ [])
    (h : ∀ m ∈ ms, countOcc uAll (render tpl m) = 0) :
    countOcc uAll (applyHandlebars tpl (.hlist ms) true) = ms.length - 1 := by
  have hcount : countOcc uAll
      (List.intercalate unionSep (ms.map (render tpl))) = ms.length - 1 := by
    rw [countOcc_intercalate_unionSep _ (by simpa using hne)
      (fun r hr => by
        rcases List.mem_map.mp hr with ⟨m, hm, rfl⟩
        exact h m hm)]
    simp
  show countOcc uAll
      (List.intercalate unionSep (ms.map (render tpl)) ++
        (if !endsC (List.intercalate unionSep (ms.map (render tpl))) semi &&
            endsC (sqlText tpl) semi then semi else [])) = ms.length - 1
  by_cases hcond : (!endsC (List.intercalate unionSep (ms.map (render tpl))) semi
      && endsC (sqlText tpl) semi) = true
  · rw [if_pos hcond, countOcc_append_semi]
    exact hcount
  · rw [if_neg hcond, List.append_nil]
    exact hcount

/-- C7 witness: two mappings over a benign templated query yield exactly
one union separator. -/
theorem c7_witness :
    msFrom ≠ []
  ∧ (∀ m ∈ msFrom, countOcc uAll (render tplFrom m) = 0)
  ∧ countOcc uAll (applyHandlebars tplFrom (.hlist msFrom) true) = msFrom.length - 1 :=
  ⟨by decide, by decide,
    applyHandlebars_union_count tplFrom msFrom (by decide) (by decide)⟩

/-- C3 counterexample: on a SELECT whose selected expression is a
function call, the classifier returns false while the claimed condition
(statement type SELECT and first non-whitespace token not a function)
holds, so the claimed equivalence fails. -/
theorem c3_func_select :
    isQuery selFuncStmt = some false ∧ specIsQuery selFuncStmt = true := by decide

/-- C3 as amended: when the classifier returns a value, that value is
true exactly when the statement type is SELECT and the second (not the
first) non-whitespace token exists and is not a function invocation. -/
theorem isQuery_second_nonws_token (st : Stmt) (b : Bool)
    (h : isQuery st = some b) :
    b = true ↔
      st.typ = "SELECT".toList ∧
        ∃ t, (nonWsTokens st).get? 1 = some t ∧ t.kind ≠ "Function".toList := by
  unfold isQuery at h
  by_cases ht : st.typ = "SELECT".toList
  · rw [if_pos ht] at h
    cases hg : (nonWsTokens st).get? 1 with
    | none => rw [hg] at h; simp at h
    | some t =>
      rw [hg] at h
      have hb : b = !(t.kind == "Function".toList) :=
        (Option.some.inj h).symm
      subst hb
      constructor
      · intro hbt
        refine ⟨ht, t, rfl, ?_⟩
        intro hk
        rw [hk] at hbt
        simp at hbt
      · rintro ⟨-, t', ht', hk⟩
        have htt : t' = t := (Option.some.inj ht').symm
        subst htt
        have hkf : (t'.kind == "Function".toList) = false :=
          beq_eq_false_iff_ne.mpr hk
        simp only [hkf, Bool.not_false]
  · rw [if_neg ht] at h
    have hb : b = false := (Option.some.inj h).symm
    subst hb
    constructor
    · intro hf
      simp at hf
    · rintro ⟨hsel, -⟩
      exact absurd hsel ht

/-- C3 witness: the plain star SELECT classifies as a query, and the
amended equivalence holds for it. -/
theorem c3_star_select_witness :
    isQuery selStarStmt = some true
  ∧ (true = true ↔
      selStarStmt.typ = "SELECT".toList ∧
        ∃ t, (nonWsTokens selStarStmt).get? 1 = some t ∧
          t.kind ≠ "Function".toList) :=
  ⟨by decide, isQuery_second_nonws_token selStarStmt true (by decide)⟩

/-- C4: a statement that returns no column metadata and no rows through
`DB.sql` does not raise: it yields the degenerate two-column table with
exactly one row whose second value is 1, or the element count when a
non-empty sequence of parameter sets was supplied. -/
theorem dbSql_no_columns_degenerate (exec : ExecFn) (tpl : Template)
    (data : PyData)
    (hEx : ∀ s a, exec s a = ⟨[], []⟩)
    (hData : ∀ l, data = PyData.plist l → l ≠ []) :
    dbSqlInner exec tpl data =
      some ⟨[sqlCol, resultCol],
        [[.vstr (pyStrip (sqlText tpl)), .vint (Int.ofNat (manyCount data))]]⟩ := by
  have hstep : ∀ d, manyStep exec tpl d = ⟨[], []⟩ := by
    intro d
    unfold manyStep
    split <;> exact hEx _ _
  cases data with
  | pnone => simp [dbSqlInner, hEx, finalize, manyCount]
  | pdict m => simp [dbSqlInner, hEx, finalize, manyCount]
  | ptup t => simp [dbSqlInner, hEx, finalize, manyCount]
  | pother => simp [dbSqlInner, hEx, finalize, manyCount]
  | plist l =>
    match l with
    | [] => exact absurd rfl (hData [] rfl)
    | hd :: tl =>
      by_cases hp : isParamSet hd = true
      · have hfold : tl.foldl (fun _ dat => manyStep exec tpl dat)
            (manyStep exec tpl hd) = ⟨[], []⟩ := by
          rw [foldl_last]
          exact hstep _
        simp [dbSqlInner, hp, hfold, finalize, manyCount]
      · simp [dbSqlInner, hp, hEx, finalize, manyCount]

/-- C4 witness: a lone DDL statement against a connection returning no
columns yields the degenerate row with count 1. -/
theorem c4_witness :
    dbSqlInner execNone ddlTpl .pnone =
      some ⟨[sqlCol, resultCol],
        [[.vstr (pyStrip (sqlText ddlTpl)),
          .vint (Int.ofNat (manyCount .pnone))]]⟩ :=
  dbSql_no_columns_degenerate execNone ddlTpl .pnone
    (fun _ _ => rfl) (fun _ hl => nomatch hl)

/-- C1 counterexample: iterating two bound tuples whose per-iteration
results are one row each (well under any collapse threshold), the
returned table is not their concatenation: it is the last iteration's
single row. -/
theorem c1_last_iteration_only :
    dbSqlInner execMany qTpl (.plist [par1, par2]) =
      some ⟨[colC], [[.vint 22]]⟩
  ∧ ([par1, par2].map (fun d => (manyStep execMany qTpl d).rows)).flatten
      = [[.vint 11], [.vint 22]]
  ∧ dbSqlInner execMany qTpl (.plist [par1, par2]) ≠
      some ⟨[colC], [[.vint 11], [.vint 22]]⟩ := by decide

/-- C1 as amended: for a non-empty sequence whose first element is a dict
or tuple, `DB.sql` iterates execution once per element, but the returned
table is built from the final iteration's result alone (its rows when
column metadata is present, else the single degenerate row carrying the
element count); earlier iterations' results are discarded and no
threshold-governed collapse occurs. -/
theorem dbSql_many_last (exec : ExecFn) (tpl : Template) (h : PParam)
    (t : List PParam) (hp : isParamSet h = true) :
    dbSqlInner exec tpl (.plist (h :: t)) =
      some (finalize (sqlText tpl) (manyStep exec tpl (t.getLastD h))
        true (t.length + 1)) := by
  simp [dbSqlInner, hp, foldl_last (manyStep exec tpl) h t]

/-- C1 witness: two bound tuples, the result determined by the second. -/
theorem c1_witness :
    isParamSet par1 = true
  ∧ dbSqlInner execMany qTpl (.plist [par1, par2]) =
      some (finalize (sqlText qTpl)
        (manyStep execMany qTpl ([par2].getLastD par1)) true 2) :=
  ⟨by decide, dbSql_many_last execMany qTpl par1 [par2] (by decide)⟩

/-- C8: with the security variable set to anything but relaxed, both the
shapefile import and the shapefile export raise the dedicated
SpatiaLiteError whose message names the unmet precondition, before any
SQL reaches the engine (the executed-statement log is empty, for every
oracle). -/
theorem importExport_security (o : SpatialOracle) (fn tn gt : Str)
    (srid : Int) (env : List (Str × Str)) (v : Str)
    (hv : List.lookup secKey env = some v) (hne : v ≠ relaxedVal) :
    importShp env o fn tn srid = ([], .error (.spatialiteError secMsg))
  ∧ exportShp env o tn fn gt = ([], .error (.spatialiteError secMsg)) := by
  have hcs : checkSecurity env = .error (.spatialiteError secMsg) := by
    unfold checkSecurity
    rw [hv]
    simp [hne]
  constructor
  · unfold importShp
    rw [hcs]
  · unfold exportShp
    rw [hcs]

/-- C8 witness: a strict environment blocks both operations with the
dedicated error and an empty statement log. -/
theorem c8_witness :
    importShp envStrict spO "f".toList "roads".toList 4326 =
      ([], .error (.spatialiteError secMsg))
  ∧ exportShp envStrict spO "roads".toList "f".toList "AUTO".toList =
      ([], .error (.spatialiteError secMsg)) :=
  importExport_security spO "f".toList "roads".toList "AUTO".toList 4326
    envStrict "strict".toList (by decide) (by decide)

/-- C5: on every well-formed blob (at least the minimal envelope, with a
declared endianness byte of 0 or 1), the decoder returns exactly what the
specification describes: the 4-byte integer at the fixed offset after the
2-byte header read in the declared endianness, and the payload sliced
between the fixed header length and the trailing terminator byte with the
endianness byte prepended. -/
theorem slbeDecode_matches_spec (b : List Nat) (h6 : 6 ≤ b.length)
    (he : b.get? 1 = some 0 ∨ b.get? 1 = some 1) :
    slbeDecode b = specSlbeDecode b := by
  match b, h6 with
  | b0 :: b1 :: b2 :: b3 :: b4 :: b5 :: rest, _ =>
    simp only [List.get?] at he
    have he' : b1 = 0 ∨ b1 = 1 := by
      rcases he with hx | hx
      · exact Or.inl (Option.some.inj hx)
      · exact Or.inr (Option.some.inj hx)
    rcases he' with rfl | rfl <;>
      (simp [slbeDecode, specSlbeDecode, dropLast_drop_comm]
       rw [List.drop_take, List.drop_take,
         show List.drop 34 (b5 :: rest) = List.drop 33 rest from rfl]
       congr 1)

/-- C5 witness: a six byte little-endian blob encoding srid 4326. -/
theorem c5_witness :
    6 ≤ exBlob.length ∧ slbeDecode exBlob = specSlbeDecode exBlob :=
  ⟨by decide, slbeDecode_matches_spec exBlob (by decide) (by decide)⟩

/-- C9: constructing the blob element succeeds exactly when the input is
at least the minimum envelope size of six bytes and its endianness byte
at offset 1 is 0 or 1; on every other input the endianness lookup or the
4-byte unpack fails and no value is decoded. -/
theorem slbeDecode_succeeds_iff (b : List Nat) :
    (slbeDecode b).isSome = true ↔
      6 ≤ b.length ∧ (b.get? 1 = some 0 ∨ b.get? 1 = some 1) := by
  match b with
  | [] => simp [slbeDecode]
  | [b0] => simp [slbeDecode]
  | [b0, b1] =>
    by_cases hb : b1 = 0 ∨ b1 = 1 <;> simp [slbeDecode, hb]
  | [b0, b1, b2] =>
    by_cases hb : b1 = 0 ∨ b1 = 1 <;> simp [slbeDecode, hb]
  | [b0, b1, b2, b3] =>
    by_cases hb : b1 = 0 ∨ b1 = 1 <;> simp [slbeDecode, hb]
  | [b0, b1, b2, b3, b4] =>
    by_cases hb : b1 = 0 ∨ b1 = 1 <;> simp [slbeDecode, hb]
  | b0 :: b1 :: b2 :: b3 :: b4 :: b5 :: rest =>
    by_cases hb : b1 = 0 ∨ b1 = 1 <;> simp [slbeDecode, hb]

/-- C2 counterexample: a two-statement script holding one SELECT query
and one CREATE returns the raw result of the query alone, not the
concatenation of the normalized per-statement results. -/
theorem c2_first_query_only :
    sqlWrapper orc [stA, stB] .pnone = some ⟨[colC], [[.vstr "x".toList]]⟩
  ∧ sqlWrapper orc [stA, stB] .pnone ≠
      (mapOpt (fun st => dbSqlInner orc.exec st.tpl .pnone) [stA, stB]).map
        (fun dfs => concatDfs (dfs.map normalizeDf)) := by decide

/-- C2 as amended: a script of more than one statement (none a floating
terminator) is executed statement by statement; when no statement
classifies as a query the result is the concatenation of the normalized
per-statement results in statement order, but when some statement is a
query the raw result of the first such query is returned alone. -/
theorem sqlWrapper_no_query_concat (o : Oracle) (parsed : List Stmt)
    (data : PyData)
    (hlen : 1 < parsed.length)
    (hend : ∀ st ∈ parsed, lowerC (pyStrip (stmtText st)) ≠ "end;".toList)
    (hq : ∀ st ∈ parsed, isQuery st = some false) :
    sqlWrapper o parsed data =
      (mapOpt (fun st => dbSqlInner o.exec st.tpl data) parsed).map
        (fun dfs => concatDfs (dfs.map normalizeDf)) := by
  match parsed, hlen with
  | a :: b :: rest, _ =>
    show (match mapOpt (fun st => dbSqlInner o.exec st.tpl data)
        (endMerge (a :: b :: rest)) with
      | none => none
      | some dfs =>
        match mapOpt isQuery (endMerge (a :: b :: rest)) with
        | none => none
        | some qflags =>
          match firstTrueIdx qflags with
          | some i => dfs.get? i
          | none =>
            match dfs with
            | [] => none
            | _ :: _ => some (concatDfs (dfs.map normalizeDf))) = _
    rw [endMerge_id _ hend]
    cases hm : mapOpt (fun st => dbSqlInner o.exec st.tpl data) (a :: b :: rest) with
    | none => simp
    | some dfs =>
      simp only [mapOpt_isQuery_false _ hq, firstTrueIdx_map_false]
      match dfs, hm with
      | [], hm => exact absurd hm (mapOpt_cons_ne_some_nil _ _ _)
      | d :: ds, _ => simp

/-- C2 witness: two CREATE statements concatenate their normalized
degenerate results. -/
theorem c2_witness :
    1 < ([stB, stC] : List Stmt).length
  ∧ sqlWrapper orc [stB, stC] .pnone =
      (mapOpt (fun st => dbSqlInner orc.exec st.tpl .pnone) [stB, stC]).map
        (fun dfs => concatDfs (dfs.map normalizeDf)) :=
  ⟨by decide,
    sqlWrapper_no_query_concat orc [stB, stC] .pnone (by decide)
      (by decide) (by decide)⟩

end Db2
